import Mathlib

/-!
Verification of the lunar-crater cutout pipeline (vlas-sokolov/moon).

The repository extracts rectangular cutouts of a global lunar elevation
raster centered on named craters, and optionally warps them into a local
projection.  Geographic coordinates are embedded as exact rationals (`ℚ`);
pixel indices as integers.  The core pipeline components (FeatureCatalog,
GeoWindow, RasterSource, Reprojector, CutoutPipeline) live in the package
module `moon/io.py`, which is not among the provided source files; those
components are modelled from the design specification, as flagged on each
definition.  The notebook `plot_pythreejs.ipynb` is embedded directly.
-/

namespace Moon

/-- Error taxonomy of the pipeline (spec §7): each stage raises its own
specific kind and the pipeline propagates the first one unchanged. -/
inductive CutoutError where
  | notFound
  | catalogLoad
  | unsupportedRegion
  | outOfBounds
  | ioError
  | projectionError
  deriving DecidableEq, Repr

/-- A named lunar surface feature: name (case-insensitive key), longitude
and latitude in degrees, nominal diameter in km (spec §3). -/
structure Feature where
  name : String
  lon : ℚ
  lat : ℚ
  diameter_km : ℚ
  deriving DecidableEq, Repr

/-- Geographic bounding box in degrees (spec §3). -/
structure GeoBoundingBox where
  lon_min : ℚ
  lon_max : ℚ
  lat_min : ℚ
  lat_max : ℚ
  deriving DecidableEq, Repr

/-- Modelled from the spec: `bounding_box(center_lon, center_lat, size_deg)`
of the GeoWindow component (its implementation in `moon/io.py` is not among
the source files).  Computes `[center - size/2, center + size/2]` on each
axis; the same arithmetic appears as `range_lon` / `range_lat` in
`plot_pythreejs.ipynb`. -/
def bounding_box (center_lon center_lat size_deg : ℚ) : GeoBoundingBox :=
  { lon_min := center_lon - size_deg / 2
    lon_max := center_lon + size_deg / 2
    lat_min := center_lat - size_deg / 2
    lat_max := center_lat + size_deg / 2 }

namespace Notebook

/-- `lon=-11.36` from `plot_pythreejs.ipynb`. -/
def lon : ℚ := -11.36

/-- `lat=-43.31` from `plot_pythreejs.ipynb`. -/
def lat : ℚ := -43.31

/-- `side=5  # in degrees` from `plot_pythreejs.ipynb`. -/
def side : ℚ := 5

/-- `range_lon = lon - side / 2, lon + side / 2` from `plot_pythreejs.ipynb`. -/
def range_lon : ℚ × ℚ := (lon - side / 2, lon + side / 2)

/-- `range_lat = lat - side / 2, lat + side / 2` from `plot_pythreejs.ipynb`. -/
def range_lat : ℚ × ℚ := (lat - side / 2, lat + side / 2)

end Notebook

/-- Six-coefficient affine transform mapping (column, row) pixel indices to
(x, y) geographic/projected coordinates (spec §3):
`x = a*col + b*row + c`, `y = d*col + e*row + f`. -/
structure AffineTransform where
  a : ℚ
  b : ℚ
  c : ℚ
  d : ℚ
  e : ℚ
  f : ℚ
  deriving DecidableEq, Repr

/-- Determinant of the linear part of an affine transform; the transform is
invertible iff it is nonzero (spec §3). -/
def AffineTransform.det (t : AffineTransform) : ℚ :=
  t.a * t.e - t.b * t.d

/-- Forward affine map: pixel (col, row) to geographic (x, y). -/
def AffineTransform.fwd (t : AffineTransform) (p : ℚ × ℚ) : ℚ × ℚ :=
  (t.a * p.1 + t.b * p.2 + t.c, t.d * p.1 + t.e * p.2 + t.f)

/-- Inverse affine map: geographic (x, y) back to pixel (col, row), by
solving the 2×2 linear system (requires `det ≠ 0`). -/
def AffineTransform.inv (t : AffineTransform) (q : ℚ × ℚ) : ℚ × ℚ :=
  let x := q.1 - t.c
  let y := q.2 - t.f
  ((t.e * x - t.b * y) / t.det, (t.a * y - t.d * x) / t.det)

/-- Integer pixel window into a raster: column/row offset and extents
(spec §3).  The windows produced by `to_pixel_window` are already clipped,
so `0 ≤ col_off`, `0 ≤ row_off`, `col_off + width ≤ raster width` and
`row_off + height ≤ raster height` hold for them. -/
structure RasterWindow where
  col_off : ℤ
  row_off : ℤ
  width : ℤ
  height : ℤ
  deriving DecidableEq, Repr

/-- Modelled from the spec: the window arithmetic of `to_pixel_window`
(GeoWindow; its implementation in `moon/io.py` is not among the source
files).  Applies the inverse affine transform to the four corners of the
bounding box, takes the enclosing integer pixel rectangle (floor of the
minima, ceiling of the maxima) and clips it to the raster bounds. -/
def clippedWindow (bbox : GeoBoundingBox) (t : AffineTransform)
    (w h : ℕ) : RasterWindow :=
  let p1 := t.inv (bbox.lon_min, bbox.lat_min)
  let p2 := t.inv (bbox.lon_min, bbox.lat_max)
  let p3 := t.inv (bbox.lon_max, bbox.lat_min)
  let p4 := t.inv (bbox.lon_max, bbox.lat_max)
  let colMin : ℤ := ⌊min (min p1.1 p2.1) (min p3.1 p4.1)⌋
  let colMax : ℤ := ⌈max (max p1.1 p2.1) (max p3.1 p4.1)⌉
  let rowMin : ℤ := ⌊min (min p1.2 p2.2) (min p3.2 p4.2)⌋
  let rowMax : ℤ := ⌈max (max p1.2 p2.2) (max p3.2 p4.2)⌉
  { col_off := max colMin 0
    row_off := max rowMin 0
    width := min colMax (w : ℤ) - max colMin 0
    height := min rowMax (h : ℤ) - max rowMin 0 }

/-- Modelled from the spec: `to_pixel_window(bbox, affine_transform,
raster_width, raster_height)` of GeoWindow (`moon/io.py` is not among the
source files).  Fails with `OutOfBoundsError` when the clipped window has
zero width or height, i.e. the requested region lies outside the raster. -/
def to_pixel_window (bbox : GeoBoundingBox) (t : AffineTransform)
    (w h : ℕ) : Except CutoutError RasterWindow :=
  if (clippedWindow bbox t w h).width ≤ 0 ∨ (clippedWindow bbox t w h).height ≤ 0 then
    .error .outOfBounds
  else
    .ok (clippedWindow bbox t w h)

/-- An explicit projection value: an identifier plus forward
(geographic → projected) and inverse coordinate maps (spec §9). -/
structure Projection where
  id : String
  fwd : ℚ × ℚ → ℚ × ℚ
  inv : ℚ × ℚ → ℚ × ℚ

/-- Modelled from the spec: the metadata and pixel content RasterSource
exposes for the opened elevation raster (`moon/io.py` is not among the
source files): dimensions, affine transform, source projection, nodata
value, and the elevation sample at each (row, column). -/
structure Raster where
  width : ℕ
  height : ℕ
  transform : AffineTransform
  projection : Projection
  nodata : ℤ
  data : ℕ → ℕ → ℤ

/-- A 2-D array of elevation samples (row-major list of rows) paired with
its affine transform and projection (spec §3, ElevationGrid). -/
structure ElevationGrid where
  data : List (List ℤ)
  transform : AffineTransform
  projection : Projection
  nodata : ℤ

/-- The sub-grid a windowed read extracts: `height × width` samples taken
from the raster starting at the window offset, with the raster transform
translated to the window origin. -/
def windowGrid (r : Raster) (win : RasterWindow) : ElevationGrid :=
  { data := (List.range win.height.toNat).map fun i =>
      (List.range win.width.toNat).map fun j =>
        r.data (win.row_off.toNat + i) (win.col_off.toNat + j)
    transform := { r.transform with
      c := (r.transform.fwd ((win.col_off : ℚ), (win.row_off : ℚ))).1
      f := (r.transform.fwd ((win.col_off : ℚ), (win.row_off : ℚ))).2 }
    projection := r.projection
    nodata := r.nodata }

/-- Modelled from the spec: `read_window(window)` of RasterSource
(`moon/io.py` is not among the source files).  Performs a windowed read of
exactly the requested sub-rectangle; fails with `IOError` when the window
is out of bounds at the I/O layer. -/
def read_window (r : Raster) (win : RasterWindow) : Except CutoutError ElevationGrid :=
  if 0 ≤ win.col_off ∧ 0 ≤ win.row_off ∧ 0 ≤ win.width ∧ 0 ≤ win.height ∧
      win.col_off + win.width ≤ (r.width : ℤ) ∧
      win.row_off + win.height ≤ (r.height : ℤ) then
    .ok (windowGrid r win)
  else
    .error .ioError

/-- The case-folded key of a feature name: its characters mapped to lower
case. -/
def lowerKey (s : String) : List Char := s.data.map Char.toLower

/-- Modelled from the spec: `lookup(name)` of FeatureCatalog (`moon/io.py`
is not among the source files).  Case-insensitive exact match on the
canonical feature name; fails with `NotFoundError` when no entry matches. -/
def lookup (catalog : List Feature) (nm : String) : Except CutoutError Feature :=
  match catalog.find? (fun feat => lowerKey feat.name == lowerKey nm) with
  | some feat => .ok feat
  | none => .error .notFound

/-- Modelled from the spec: the CutoutPipeline entry point `cutout`
(`moon/io.py` is not among the source files): resolve the feature name via
the catalog, compute the bounding box and pixel window, then read.  The
second component counts raster reads performed, so that the zero-I/O
property of failed lookups is expressible. -/
def cutout (catalog : List Feature) (r : Raster) (size_deg : ℚ)
    (nm : String) : Except CutoutError ElevationGrid × ℕ :=
  match lookup catalog nm with
  | .error err => (.error err, 0)
  | .ok feat =>
    match to_pixel_window (bounding_box feat.lon feat.lat size_deg)
        r.transform r.width r.height with
    | .error err => (.error err, 0)
    | .ok win =>
      match read_window r win with
      | .error err => (.error err, 1)
      | .ok g => (.ok g, 1)

/-- Number of sample columns of a grid (length of its first row). -/
def gridCols (g : ElevationGrid) : ℕ := (g.data.headD []).length

/-- Number of sample rows of a grid. -/
def gridRows (g : ElevationGrid) : ℕ := g.data.length

/-- Geographic footprint of a `w × h` pixel extent under an affine
transform: the enclosing rectangle of the four corner coordinates, as
(x_min, x_max, y_min, y_max). -/
def footprint (t : AffineTransform) (w h : ℕ) : ℚ × ℚ × ℚ × ℚ :=
  let q1 := t.fwd (0, 0)
  let q2 := t.fwd ((w : ℚ), 0)
  let q3 := t.fwd (0, (h : ℚ))
  let q4 := t.fwd ((w : ℚ), (h : ℚ))
  (min (min q1.1 q2.1) (min q3.1 q4.1),
   max (max q1.1 q2.1) (max q3.1 q4.1),
   min (min q1.2 q2.2) (min q3.2 q4.2),
   max (max q1.2 q2.2) (max q3.2 q4.2))

/-- Geographic footprint of a grid. -/
def gridFootprint (g : ElevationGrid) : ℚ × ℚ × ℚ × ℚ :=
  footprint g.transform (gridCols g) (gridRows g)

/-- Modelled from the spec: step (2) of `warp` (Reprojector, `moon/io.py`
is not among the source files): the enclosing rectangle, in the target
projection, of the four corners of the source grid's footprint, as
(x_min, x_max, y_min, y_max). -/
def warpExtent (g : ElevationGrid) (target : Projection) : ℚ × ℚ × ℚ × ℚ :=
  let reproject := fun p => target.fwd (g.projection.inv p)
  let q1 := reproject (g.transform.fwd (0, 0))
  let q2 := reproject (g.transform.fwd ((gridCols g : ℚ), 0))
  let q3 := reproject (g.transform.fwd (0, (gridRows g : ℚ)))
  let q4 := reproject (g.transform.fwd ((gridCols g : ℚ), (gridRows g : ℚ)))
  (min (min q1.1 q2.1) (min q3.1 q4.1),
   max (max q1.1 q2.1) (max q3.1 q4.1),
   min (min q1.2 q2.2) (min q3.2 q4.2),
   max (max q1.2 q2.2) (max q3.2 q4.2))

/-- The output affine transform of `warp`: north-up over the warp extent,
at a resolution equal to the source ground sample distance. -/
def warpTransform (g : ElevationGrid) (target : Projection) : AffineTransform :=
  { a := |g.transform.a|, b := 0, c := (warpExtent g target).1,
    d := 0, e := -|g.transform.e|, f := (warpExtent g target).2.2.2 }

/-- Output width of `warp`: the warp extent divided by the horizontal
resolution, rounded up. -/
def warpWidth (g : ElevationGrid) (target : Projection) : ℕ :=
  if |g.transform.a| = 0 then 0
  else ⌈((warpExtent g target).2.1 - (warpExtent g target).1) / |g.transform.a|⌉.toNat

/-- Output height of `warp`: the warp extent divided by the vertical
resolution, rounded up. -/
def warpHeight (g : ElevationGrid) (target : Projection) : ℕ :=
  if |g.transform.e| = 0 then 0
  else ⌈((warpExtent g target).2.2.2 - (warpExtent g target).2.2.1) / |g.transform.e|⌉.toNat

/-- Modelled from the spec: step (3) of `warp`: map an output pixel center
back through the target projection to source pixel indices and sample the
nearest source pixel, or the nodata sentinel outside the source window. -/
def resample (g : ElevationGrid) (target : Projection)
    (tOut : AffineTransform) (i j : ℕ) : ℤ :=
  let xy := tOut.fwd ((j : ℚ) + 1 / 2, (i : ℚ) + 1 / 2)
  let sp := g.transform.inv (g.projection.fwd (target.inv xy))
  if 0 ≤ ⌊sp.1⌋ ∧ ⌊sp.1⌋ < (gridCols g : ℤ) ∧
      0 ≤ ⌊sp.2⌋ ∧ ⌊sp.2⌋ < (gridRows g : ℤ) then
    (g.data.getD ⌊sp.2⌋.toNat []).getD ⌊sp.1⌋.toNat g.nodata
  else g.nodata

/-- Modelled from the spec: `warp(grid, target_projection)` of Reprojector
(`moon/io.py` is not among the source files): the output grid over the
reprojected footprint, resampled pixel by pixel. -/
def warp (g : ElevationGrid) (target : Projection) : ElevationGrid :=
  { data := (List.range (warpHeight g target)).map fun i =>
      (List.range (warpWidth g target)).map fun j =>
        resample g target (warpTransform g target) i j
    transform := warpTransform g target
    projection := target
    nodata := g.nodata }

/-- The source projection of the global raster, used by concrete
instantiations below: the identity on (lon, lat), matching the glossary's
equirectangular description (longitude/latitude map linearly to pixels). -/
def equirectangular : Projection :=
  { id := "EQC", fwd := id, inv := id }

/-- The affine transform of a 1 degree-per-pixel global equirectangular
raster: pixel (0,0) at (-180°, 90°), north up. -/
def demoTransform : AffineTransform :=
  { a := 1, b := 0, c := -180, d := 0, e := -1, f := 90 }

/-- A concrete global raster used to instantiate the theorems below. -/
def demoRaster : Raster :=
  { width := 360, height := 180, transform := demoTransform,
    projection := equirectangular, nodata := -32768, data := fun i j => (i : ℤ) + j }

/-- A concrete one-entry feature catalog used to instantiate the theorems
below; coordinates as in the notebook and the spec's Tycho scenario. -/
def demoCatalog : List Feature :=
  [{ name := "Tycho", lon := -11.36, lat := -43.31, diameter_km := 85 }]

/-- A concrete 2×2 elevation grid used to instantiate the warp theorem. -/
def demoGrid : ElevationGrid :=
  { data := [[1, 2], [3, 4]], transform := demoTransform,
    projection := equirectangular, nodata := -32768 }

end Moon

open Moon

/-- C1: `bounding_box` returns the box `[center - size/2, center + size/2]`
on each axis; for the feature "tycho" at (-11.36, -43.31) with size 5
degrees the footprint covers longitude [-13.86, -8.86] and latitude
[-45.81, -40.81], in agreement with the notebook's `range_lon`/`range_lat`. -/
theorem C1_bounding_box_spec :
    (∀ clon clat s : ℚ, bounding_box clon clat s =
      { lon_min := clon - s / 2, lon_max := clon + s / 2,
        lat_min := clat - s / 2, lat_max := clat + s / 2 }) ∧
    bounding_box (-11.36) (-43.31) 5 =
      { lon_min := -13.86, lon_max := -8.86,
        lat_min := -45.81, lat_max := -40.81 } ∧
    Notebook.range_lon = (-13.86, -8.86) ∧
    Notebook.range_lat = (-45.81, -40.81) := by
  refine ⟨fun clon clat s => rfl, ?_, ?_, ?_⟩ <;>
    norm_num [bounding_box, Notebook.range_lon, Notebook.range_lat,
      Notebook.lon, Notebook.lat, Notebook.side, Prod.ext_iff]

/-- C3: for every affine transform with nonzero determinant and every pixel
coordinate, mapping through the transform and back through its inverse
returns the original pixel coordinate (exactly, in rational arithmetic,
hence within any floating-point tolerance). -/
theorem C3_affine_round_trip (t : AffineTransform) (p : ℚ × ℚ)
    (h : t.det ≠ 0) : t.inv (t.fwd p) = p := by
  have hdet : t.a * t.e - t.b * t.d ≠ 0 := h
  obtain ⟨px, py⟩ := p
  simp only [AffineTransform.fwd, AffineTransform.inv, AffineTransform.det,
    Prod.mk.injEq]
  constructor
  · field_simp
    ring
  · field_simp
    ring

/-- Witness for C3 at a concrete invertible transform and pixel. -/
theorem C3_affine_round_trip_witness :
    (AffineTransform.det ⟨2, 1, 5, 1, 3, -7⟩ ≠ 0) ∧
      AffineTransform.inv ⟨2, 1, 5, 1, 3, -7⟩
        (AffineTransform.fwd ⟨2, 1, 5, 1, 3, -7⟩ (4, 9)) = (4, 9) :=
  ⟨by norm_num [AffineTransform.det],
    C3_affine_round_trip ⟨2, 1, 5, 1, 3, -7⟩ (4, 9)
      (by norm_num [AffineTransform.det])⟩

/-- For a north-up transform (no cross terms) the inverse affine map acts
independently on each axis. -/
lemma inv_northup (t : AffineTransform) (hb : t.b = 0) (hd : t.d = 0)
    (ha : t.a ≠ 0) (he : t.e ≠ 0) (q : ℚ × ℚ) :
    t.inv q = ((q.1 - t.c) / t.a, (q.2 - t.f) / t.e) := by
  obtain ⟨qx, qy⟩ := q
  simp only [AffineTransform.inv, AffineTransform.det, hb, hd, zero_mul,
    mul_zero, sub_zero, Prod.mk.injEq]
  constructor
  · rw [mul_comm t.a t.e, mul_div_mul_left _ _ he]
  · rw [mul_div_mul_left _ _ ha]

/-- Closed form of `clippedWindow` for a north-up transform and an ordered
bounding box. -/
lemma clippedWindow_northup (bbox : GeoBoundingBox) (t : AffineTransform)
    (w h : ℕ) (hb : t.b = 0) (hd : t.d = 0) (ha : 0 < t.a) (he : t.e < 0)
    (hlon : bbox.lon_min ≤ bbox.lon_max) (hlat : bbox.lat_min ≤ bbox.lat_max) :
    clippedWindow bbox t w h =
      { col_off := max ⌊(bbox.lon_min - t.c) / t.a⌋ 0
        row_off := max ⌊(bbox.lat_max - t.f) / t.e⌋ 0
        width := min ⌈(bbox.lon_max - t.c) / t.a⌉ (w : ℤ) -
          max ⌊(bbox.lon_min - t.c) / t.a⌋ 0
        height := min ⌈(bbox.lat_min - t.f) / t.e⌉ (h : ℤ) -
          max ⌊(bbox.lat_max - t.f) / t.e⌋ 0 } := by
  have hcol : (bbox.lon_min - t.c) / t.a ≤ (bbox.lon_max - t.c) / t.a :=
    (div_le_div_right ha).mpr (by linarith)
  have hrow : (bbox.lat_max - t.f) / t.e ≤ (bbox.lat_min - t.f) / t.e :=
    (div_le_div_right_of_neg he).mpr (by linarith)
  simp only [clippedWindow, inv_northup t hb hd (ne_of_gt ha) (ne_of_lt he),
    min_self, max_self, min_eq_left hcol, max_eq_right hcol,
    min_eq_right hrow, max_eq_left hrow]

/-- `to_pixel_window` yields `OutOfBoundsError` exactly when the clipped
window is degenerate. -/
lemma to_pixel_window_error_iff (bbox : GeoBoundingBox) (t : AffineTransform)
    (w h : ℕ) :
    to_pixel_window bbox t w h = .error .outOfBounds ↔
      (clippedWindow bbox t w h).width ≤ 0 ∨
      (clippedWindow bbox t w h).height ≤ 0 := by
  by_cases hcond : (clippedWindow bbox t w h).width ≤ 0 ∨
      (clippedWindow bbox t w h).height ≤ 0 <;>
    simp [to_pixel_window, hcond]

/-- `to_pixel_window` succeeds exactly on the nondegenerate clipped window. -/
lemma to_pixel_window_ok_iff (bbox : GeoBoundingBox) (t : AffineTransform)
    (w h : ℕ) (win : RasterWindow) :
    to_pixel_window bbox t w h = .ok win ↔
      win = clippedWindow bbox t w h ∧ 0 < win.width ∧ 0 < win.height := by
  unfold to_pixel_window
  split
  next hcond =>
    constructor
    · intro hx; exact absurd hx (by simp)
    · rintro ⟨rfl, hw, hh⟩
      rcases hcond with hc | hc <;> omega
  next hcond =>
    push_neg at hcond
    rw [Except.ok.injEq]
    constructor
    · rintro rfl
      exact ⟨rfl, hcond.1, hcond.2⟩
    · rintro ⟨rfl, -, -⟩
      rfl

/-- Pure integer arithmetic behind the clipping bound. -/
lemma clip_le {cmin cmax n : ℤ} : max cmin 0 + (min cmax n - max cmin 0) ≤ n := by
  omega

/-- Every clipped window sits inside the raster bounds. -/
lemma clippedWindow_bounds (bbox : GeoBoundingBox) (t : AffineTransform)
    (w h : ℕ) :
    0 ≤ (clippedWindow bbox t w h).col_off ∧
    0 ≤ (clippedWindow bbox t w h).row_off ∧
    (clippedWindow bbox t w h).col_off + (clippedWindow bbox t w h).width ≤ (w : ℤ) ∧
    (clippedWindow bbox t w h).row_off + (clippedWindow bbox t w h).height ≤ (h : ℤ) := by
  simp only [clippedWindow]
  exact ⟨le_max_right _ _, le_max_right _ _, clip_le, clip_le⟩

/-- A windowed read of an in-bounds window succeeds and returns the window
grid. -/
lemma read_window_ok (r : Raster) (win : RasterWindow)
    (h1 : 0 ≤ win.col_off) (h2 : 0 ≤ win.row_off)
    (h3 : 0 ≤ win.width) (h4 : 0 ≤ win.height)
    (h5 : win.col_off + win.width ≤ (r.width : ℤ))
    (h6 : win.row_off + win.height ≤ (r.height : ℤ)) :
    read_window r win = .ok (windowGrid r win) := by
  have hc : 0 ≤ win.col_off ∧ 0 ≤ win.row_off ∧ 0 ≤ win.width ∧
      0 ≤ win.height ∧ win.col_off + win.width ≤ (r.width : ℤ) ∧
      win.row_off + win.height ≤ (r.height : ℤ) :=
    ⟨h1, h2, h3, h4, h5, h6⟩
  unfold read_window
  rw [if_pos hc]

/-- The window grid has exactly `height` rows of `width` samples each. -/
lemma windowGrid_dims (r : Raster) (win : RasterWindow) :
    (windowGrid r win).data.length = win.height.toNat ∧
    ∀ row ∈ (windowGrid r win).data, row.length = win.width.toNat := by
  constructor
  · simp [windowGrid]
  · intro row hrow
    simp only [windowGrid, List.mem_map] at hrow
    obtain ⟨i, _, rfl⟩ := hrow
    simp

/-- C6: `to_pixel_window` fails with `OutOfBoundsError` exactly when the
window clipped to raster bounds has zero width or height; in particular,
for a north-up transform, every ordered bounding box lying entirely outside
the raster extent fails with `OutOfBoundsError`. -/
theorem C6_to_pixel_window_out_of_bounds (bbox : GeoBoundingBox)
    (t : AffineTransform) (w h : ℕ) :
    (to_pixel_window bbox t w h = .error .outOfBounds ↔
      (clippedWindow bbox t w h).width ≤ 0 ∨
      (clippedWindow bbox t w h).height ≤ 0) ∧
    (t.b = 0 → t.d = 0 → 0 < t.a → t.e < 0 →
      bbox.lon_min ≤ bbox.lon_max → bbox.lat_min ≤ bbox.lat_max →
      (bbox.lon_max < t.c ∨ t.c + t.a * w < bbox.lon_min ∨
        bbox.lat_max < t.f + t.e * h ∨ t.f < bbox.lat_min) →
      to_pixel_window bbox t w h = .error .outOfBounds) := by
  refine ⟨to_pixel_window_error_iff bbox t w h, ?_⟩
  intro hb hd ha he hlon hlat hout
  rw [to_pixel_window_error_iff,
    clippedWindow_northup bbox t w h hb hd ha he hlon hlat]
  rcases hout with hcase | hcase | hcase | hcase
  · left
    have hq : (bbox.lon_max - t.c) / t.a ≤ 0 :=
      div_nonpos_of_nonpos_of_nonneg (by linarith) ha.le
    have hceil : ⌈(bbox.lon_max - t.c) / t.a⌉ ≤ 0 := Int.ceil_le.mpr (by
      exact_mod_cast hq)
    have := le_max_right ⌊(bbox.lon_min - t.c) / t.a⌋ (0 : ℤ)
    simp only []
    omega
  · left
    have hq : (w : ℚ) ≤ (bbox.lon_min - t.c) / t.a :=
      (le_div_iff ha).mpr (by linarith [mul_comm t.a (w : ℚ)])
    have hfloor : (w : ℤ) ≤ ⌊(bbox.lon_min - t.c) / t.a⌋ := Int.le_floor.mpr (by
      exact_mod_cast hq)
    have hmin := min_le_right ⌈(bbox.lon_max - t.c) / t.a⌉ ((w : ℕ) : ℤ)
    simp only []
    omega
  · right
    have hq : (h : ℚ) ≤ (bbox.lat_max - t.f) / t.e := by
      rw [le_div_iff_of_neg he]
      linarith [mul_comm (h : ℚ) t.e]
    have hfloor : (h : ℤ) ≤ ⌊(bbox.lat_max - t.f) / t.e⌋ := Int.le_floor.mpr (by
      exact_mod_cast hq)
    have hmin := min_le_right ⌈(bbox.lat_min - t.f) / t.e⌉ ((h : ℕ) : ℤ)
    simp only []
    omega
  · right
    have hq : (bbox.lat_min - t.f) / t.e ≤ 0 :=
      div_nonpos_of_nonneg_of_nonpos (by linarith) he.le
    have hceil : ⌈(bbox.lat_min - t.f) / t.e⌉ ≤ 0 := Int.ceil_le.mpr (by
      exact_mod_cast hq)
    have := le_max_right ⌊(bbox.lat_max - t.f) / t.e⌋ (0 : ℤ)
    simp only []
    omega

/-- Witness for C6 at a request for a box around longitude 200°, beyond the
right edge of the 360×180 one-degree global raster. -/
theorem C6_to_pixel_window_out_of_bounds_witness :
    to_pixel_window (bounding_box 200 0 5) demoTransform 360 180 =
      .error .outOfBounds :=
  (C6_to_pixel_window_out_of_bounds (bounding_box 200 0 5) demoTransform
      360 180).2
    rfl rfl (by norm_num [demoTransform]) (by norm_num [demoTransform])
    (by norm_num [bounding_box]) (by norm_num [bounding_box])
    (Or.inr (Or.inl (by norm_num [bounding_box, demoTransform])))

/-- C2: for a north-up raster and a nondegenerate bounding box fully inside
the raster extent, `to_pixel_window` succeeds and `read_window` returns a
grid whose two dimensions equal the pixel window's height and width
exactly. -/
theorem C2_window_then_read_dims (r : Raster) (bbox : GeoBoundingBox)
    (hb : r.transform.b = 0) (hd : r.transform.d = 0)
    (ha : 0 < r.transform.a) (he : r.transform.e < 0)
    (hlon : bbox.lon_min < bbox.lon_max) (hlat : bbox.lat_min < bbox.lat_max)
    (h1 : r.transform.c ≤ bbox.lon_min)
    (h2 : bbox.lon_max ≤ r.transform.c + r.transform.a * r.width)
    (h3 : r.transform.f + r.transform.e * r.height ≤ bbox.lat_min)
    (h4 : bbox.lat_max ≤ r.transform.f) :
    ∃ win g,
      to_pixel_window bbox r.transform r.width r.height = .ok win ∧
      read_window r win = .ok g ∧
      g.data.length = win.height.toNat ∧
      ∀ row ∈ g.data, row.length = win.width.toNat := by
  set t := r.transform with ht
  have hwin := clippedWindow_northup bbox t r.width r.height hb hd ha he
    hlon.le hlat.le
  have hA : (0 : ℤ) ≤ ⌊(bbox.lon_min - t.c) / t.a⌋ := by
    rw [Int.le_floor]
    push_cast
    exact div_nonneg (by linarith) ha.le
  have hB : ⌈(bbox.lon_max - t.c) / t.a⌉ ≤ (r.width : ℤ) := by
    rw [Int.ceil_le]
    push_cast
    rw [div_le_iff ha]
    linarith [mul_comm (r.width : ℚ) t.a]
  have hC : ⌊(bbox.lon_min - t.c) / t.a⌋ < ⌈(bbox.lon_max - t.c) / t.a⌉ := by
    have l1 := Int.floor_le ((bbox.lon_min - t.c) / t.a)
    have l2 := Int.le_ceil ((bbox.lon_max - t.c) / t.a)
    have l3 : (bbox.lon_min - t.c) / t.a < (bbox.lon_max - t.c) / t.a :=
      (div_lt_div_iff_of_pos_right ha).mpr (by linarith)
    exact_mod_cast lt_of_le_of_lt l1 (lt_of_lt_of_le l3 l2)
  have hD : (0 : ℤ) ≤ ⌊(bbox.lat_max - t.f) / t.e⌋ := by
    rw [Int.le_floor]
    push_cast
    exact div_nonneg_of_nonpos (by linarith) he.le
  have hE : ⌈(bbox.lat_min - t.f) / t.e⌉ ≤ (r.height : ℤ) := by
    rw [Int.ceil_le]
    push_cast
    rw [div_le_iff_of_neg he]
    linarith [mul_comm (r.height : ℚ) t.e]
  have hF : ⌊(bbox.lat_max - t.f) / t.e⌋ < ⌈(bbox.lat_min - t.f) / t.e⌉ := by
    have l1 := Int.floor_le ((bbox.lat_max - t.f) / t.e)
    have l2 := Int.le_ceil ((bbox.lat_min - t.f) / t.e)
    have l3 : (bbox.lat_max - t.f) / t.e < (bbox.lat_min - t.f) / t.e :=
      (div_lt_div_right_of_neg he).mpr (by linarith)
    exact_mod_cast lt_of_le_of_lt l1 (lt_of_lt_of_le l3 l2)
  have hwpos : 0 < (clippedWindow bbox t r.width r.height).width := by
    rw [hwin]
    simp only []
    omega
  have hhpos : 0 < (clippedWindow bbox t r.width r.height).height := by
    rw [hwin]
    simp only []
    omega
  have hok : to_pixel_window bbox t r.width r.height =
      .ok (clippedWindow bbox t r.width r.height) := by
    rw [to_pixel_window_ok_iff]
    exact ⟨rfl, hwpos, hhpos⟩
  have hbounds := clippedWindow_bounds bbox t r.width r.height
  have hread := read_window_ok r (clippedWindow bbox t r.width r.height)
    hbounds.1 hbounds.2.1 hwpos.le hhpos.le hbounds.2.2.1 hbounds.2.2.2
  have hdims := windowGrid_dims r (clippedWindow bbox t r.width r.height)
  exact ⟨_, _, hok, hread, hdims.1, hdims.2⟩

/-- Witness for C2 on the one-degree global raster and the Tycho box. -/
theorem C2_window_then_read_dims_witness :
    ∃ win g,
      to_pixel_window (bounding_box (-11.36) (-43.31) 5) demoRaster.transform
        demoRaster.width demoRaster.height = .ok win ∧
      read_window demoRaster win = .ok g ∧
      g.data.length = win.height.toNat ∧
      ∀ row ∈ g.data, row.length = win.width.toNat :=
  C2_window_then_read_dims demoRaster (bounding_box (-11.36) (-43.31) 5)
    rfl rfl (by norm_num [demoRaster, demoTransform])
    (by norm_num [demoRaster, demoTransform])
    (by norm_num [bounding_box]) (by norm_num [bounding_box])
    (by norm_num [demoRaster, demoTransform, bounding_box])
    (by norm_num [demoRaster, demoTransform, bounding_box])
    (by norm_num [demoRaster, demoTransform, bounding_box])
    (by norm_num [demoRaster, demoTransform, bounding_box])

/-- When some catalog entry matches the queried name up to case, `lookup`
returns a stored entry that matches up to case. -/
lemma lookup_ok_of_match (catalog : List Feature) (nm : String)
    (hmatch : ∃ feat ∈ catalog, lowerKey feat.name = lowerKey nm) :
    ∃ feat, lookup catalog nm = .ok feat ∧ feat ∈ catalog ∧
      lowerKey feat.name = lowerKey nm := by
  obtain ⟨f0, hf0, hf0m⟩ := hmatch
  have hex : (catalog.find? (fun feat => lowerKey feat.name == lowerKey nm)).isSome := by
    rw [List.find?_isSome]
    exact ⟨f0, hf0, by simpa using hf0m⟩
  obtain ⟨f1, hf1⟩ := Option.isSome_iff_exists.mp hex
  refine ⟨f1, ?_, List.mem_of_find?_eq_some hf1, ?_⟩
  · simp [lookup, hf1]
  · simpa using List.find?_some hf1

/-- When no catalog entry matches the queried name up to case, `lookup`
fails with `NotFoundError`. -/
lemma lookup_notFound_of_no_match (catalog : List Feature) (nm : String)
    (hnone : ∀ feat ∈ catalog, lowerKey feat.name ≠ lowerKey nm) :
    lookup catalog nm = .error .notFound := by
  have hfind : catalog.find? (fun feat => lowerKey feat.name == lowerKey nm) = none := by
    rw [List.find?_eq_none]
    intro x hx
    simpa using hnone x hx
  simp [lookup, hfind]

/-- C5: `lookup` returns a stored Feature for every name matching a
canonical catalog entry case-insensitively, and fails with `NotFoundError`
for every name with no such entry. -/
theorem C5_lookup_case_insensitive (catalog : List Feature) (nm : String) :
    ((∃ feat ∈ catalog, lowerKey feat.name = lowerKey nm) →
      ∃ feat, lookup catalog nm = .ok feat ∧ feat ∈ catalog ∧
        lowerKey feat.name = lowerKey nm) ∧
    ((∀ feat ∈ catalog, lowerKey feat.name ≠ lowerKey nm) →
      lookup catalog nm = .error .notFound) :=
  ⟨lookup_ok_of_match catalog nm, lookup_notFound_of_no_match catalog nm⟩

/-- Witness for C5: the catalog stores "Tycho"; looking up "TYCHO"
succeeds, looking up "notacrater" fails with `NotFoundError`. -/
theorem C5_lookup_case_insensitive_witness :
    (∃ feat, lookup demoCatalog "TYCHO" = .ok feat ∧ feat ∈ demoCatalog ∧
      lowerKey feat.name = lowerKey "TYCHO") ∧
    lookup demoCatalog "notacrater" = .error .notFound :=
  ⟨(C5_lookup_case_insensitive demoCatalog "TYCHO").1 (by decide),
   (C5_lookup_case_insensitive demoCatalog "notacrater").2 (by decide)⟩

/-- C4: `cutout` propagates the first failure of any stage without
catching or wrapping it, and an unknown feature name (such as
"notacrater") fails with `NotFoundError` after zero raster reads. -/
theorem C4_cutout_propagates_first_failure (catalog : List Feature)
    (r : Raster) (size_deg : ℚ) (nm : String) :
    (∀ err, lookup catalog nm = .error err →
      cutout catalog r size_deg nm = (.error err, 0)) ∧
    (∀ feat err, lookup catalog nm = .ok feat →
      to_pixel_window (bounding_box feat.lon feat.lat size_deg)
        r.transform r.width r.height = .error err →
      cutout catalog r size_deg nm = (.error err, 0)) ∧
    (∀ feat win err, lookup catalog nm = .ok feat →
      to_pixel_window (bounding_box feat.lon feat.lat size_deg)
        r.transform r.width r.height = .ok win →
      read_window r win = .error err →
      cutout catalog r size_deg nm = (.error err, 1)) ∧
    ((∀ feat ∈ catalog, lowerKey feat.name ≠ lowerKey "notacrater") →
      nm = "notacrater" →
      cutout catalog r size_deg nm = (.error .notFound, 0)) := by
  refine ⟨?_, ?_, ?_, ?_⟩
  · intro err hlk
    simp [cutout, hlk]
  · intro feat err hlk hpw
    simp [cutout, hlk, hpw]
  · intro feat win err hlk hpw hrd
    simp [cutout, hlk, hpw, hrd]
  · intro hcat hnm
    subst hnm
    simp [cutout, lookup_notFound_of_no_match catalog "notacrater" hcat]

/-- Witness for C4: requesting "notacrater" against the demo catalog and
raster fails with `NotFoundError` and performs zero raster reads. -/
theorem C4_cutout_propagates_first_failure_witness :
    cutout demoCatalog demoRaster 5 "notacrater" =
      (.error .notFound, 0) :=
  (C4_cutout_propagates_first_failure demoCatalog demoRaster 5
    "notacrater").2.2.2 (by decide) rfl

/-- For a north-up grid and a target projection equal to the source (with
forward after inverse the identity), the warp extent is exactly the source
footprint rectangle. -/
lemma warpExtent_self (g : ElevationGrid)
    (hb : g.transform.b = 0) (hd : g.transform.d = 0)
    (ha : 0 < g.transform.a) (he : g.transform.e < 0)
    (hproj : ∀ p, g.projection.fwd (g.projection.inv p) = p) :
    warpExtent g g.projection =
      (g.transform.c,
       g.transform.a * (gridCols g : ℚ) + g.transform.c,
       g.transform.e * (gridRows g : ℚ) + g.transform.f,
       g.transform.f) := by
  have hw0 : (0 : ℚ) ≤ g.transform.a * (gridCols g : ℚ) :=
    mul_nonneg ha.le (Nat.cast_nonneg _)
  have hh0 : g.transform.e * (gridRows g : ℚ) ≤ 0 :=
    mul_nonpos_of_nonpos_of_nonneg he.le (Nat.cast_nonneg _)
  have hxle : g.transform.c ≤ g.transform.a * (gridCols g : ℚ) + g.transform.c :=
    le_add_of_nonneg_left hw0
  have hyle : g.transform.e * (gridRows g : ℚ) + g.transform.f ≤ g.transform.f :=
    add_le_of_nonpos_left hh0
  simp only [warpExtent, hproj, AffineTransform.fwd, hb, hd, mul_zero, zero_mul,
    add_zero, zero_add, min_self, max_self, min_eq_left hxle, max_eq_right hxle,
    min_eq_right hyle, max_eq_left hyle]

/-- With the source projection as target, the output width equals the
source width. -/
lemma warpWidth_self (g : ElevationGrid)
    (hb : g.transform.b = 0) (hd : g.transform.d = 0)
    (ha : 0 < g.transform.a) (he : g.transform.e < 0)
    (hproj : ∀ p, g.projection.fwd (g.projection.inv p) = p) :
    warpWidth g g.projection = gridCols g := by
  have ha' : g.transform.a ≠ 0 := ne_of_gt ha
  rw [warpWidth, warpExtent_self g hb hd ha he hproj,
    if_neg (abs_ne_zero.mpr ha')]
  rw [abs_of_pos ha]
  rw [add_sub_cancel_right, mul_comm, mul_div_cancel_right₀ _ ha',
    Int.ceil_natCast, Int.toNat_natCast]

/-- With the source projection as target, the output height equals the
source height. -/
lemma warpHeight_self (g : ElevationGrid)
    (hb : g.transform.b = 0) (hd : g.transform.d = 0)
    (ha : 0 < g.transform.a) (he : g.transform.e < 0)
    (hproj : ∀ p, g.projection.fwd (g.projection.inv p) = p) :
    warpHeight g g.projection = gridRows g := by
  have he' : g.transform.e ≠ 0 := ne_of_lt he
  rw [warpHeight, warpExtent_self g hb hd ha he hproj,
    if_neg (abs_ne_zero.mpr he')]
  rw [abs_of_neg he]
  have hsub : g.transform.f -
      (g.transform.e * (gridRows g : ℚ) + g.transform.f) =
      -(g.transform.e * (gridRows g : ℚ)) := by ring
  rw [hsub, neg_div_neg_eq, mul_div_cancel_left₀ _ he',
    Int.ceil_natCast, Int.toNat_natCast]

/-- With the source projection as target, the output transform equals the
source transform. -/
lemma warpTransform_self (g : ElevationGrid)
    (hb : g.transform.b = 0) (hd : g.transform.d = 0)
    (ha : 0 < g.transform.a) (he : g.transform.e < 0)
    (hproj : ∀ p, g.projection.fwd (g.projection.inv p) = p) :
    warpTransform g g.projection = g.transform := by
  rw [warpTransform, warpExtent_self g hb hd ha he hproj]
  rw [abs_of_pos ha, abs_of_neg he, neg_neg]
  conv_rhs => rw [show g.transform = ⟨g.transform.a, g.transform.b,
    g.transform.c, g.transform.d, g.transform.e, g.transform.f⟩ from rfl]
  rw [hb, hd]

/-- The warped grid has `warpHeight` rows, each of `warpWidth` samples. -/
lemma warp_dims (g : ElevationGrid) (target : Projection) :
    gridRows (warp g target) = warpHeight g target ∧
    (0 < warpHeight g target → gridCols (warp g target) = warpWidth g target) := by
  constructor
  · simp [warp, gridRows]
  · intro hpos
    obtain ⟨n, hn⟩ : ∃ n, warpHeight g target = n + 1 :=
      ⟨_, (Nat.succ_pred_eq_of_pos hpos).symm⟩
    simp only [warp, gridCols, hn, List.range_succ_eq_map, List.map_cons,
      List.headD_cons, List.length_map, List.length_range]

/-- C7: warping a north-up grid into its own source projection yields a
grid geometrically equivalent to the input: same geographic footprint and
same dimensions, with values resampled. -/
theorem C7_warp_source_projection (g : ElevationGrid)
    (hb : g.transform.b = 0) (hd : g.transform.d = 0)
    (ha : 0 < g.transform.a) (he : g.transform.e < 0)
    (hrows : 0 < gridRows g)
    (hproj : ∀ p, g.projection.fwd (g.projection.inv p) = p) :
    gridFootprint (warp g g.projection) = gridFootprint g ∧
    gridRows (warp g g.projection) = gridRows g ∧
    gridCols (warp g g.projection) = gridCols g := by
  have hh := warpHeight_self g hb hd ha he hproj
  have hw := warpWidth_self g hb hd ha he hproj
  have ht := warpTransform_self g hb hd ha he hproj
  have hdims := warp_dims g g.projection
  have hrows' : gridRows (warp g g.projection) = gridRows g := by
    rw [hdims.1, hh]
  have hcols' : gridCols (warp g g.projection) = gridCols g := by
    rw [hdims.2 (by rw [hh]; exact hrows), hw]
  refine ⟨?_, hrows', hcols'⟩
  have htr : (warp g g.projection).transform = g.transform := by
    rw [warp]
    exact ht
  rw [gridFootprint, gridFootprint, hrows', hcols', htr]

/-- Witness for C7 on a concrete 2×2 equirectangular grid. -/
theorem C7_warp_source_projection_witness :
    gridFootprint (warp demoGrid demoGrid.projection) = gridFootprint demoGrid ∧
    gridRows (warp demoGrid demoGrid.projection) = gridRows demoGrid ∧
    gridCols (warp demoGrid demoGrid.projection) = gridCols demoGrid :=
  C7_warp_source_projection demoGrid rfl rfl
    (by norm_num [demoGrid, demoTransform])
    (by norm_num [demoGrid, demoTransform])
    (by norm_num [demoGrid, gridRows])
    (fun p => rfl)
